import Mathlib

/-
Verification of the request-resilience and dispatch pipeline of
ts-shipment-tracking: shallow Lean embeddings of the middleware chain engine
(src/tracker.ts), the circuit breaker (src/middleware/circuit-breaker.ts),
the retry executor (src/middleware/retry.ts), the cache middleware
(src/middleware/cache.ts), the token lifecycle and 401 re-auth of
BaseProvider (src/providers/base-provider.ts), batch dispatch
(ShipmentTracker.trackBatch) and middleware-list construction
(createTracker).  Machine integers of the source are modelled as Nat,
timestamps (Date.now values) as Int, fallible code as Except.
-/

deriving instance DecidableEq for Except

namespace STrack

/- ───────────────────────── Errors ─────────────────────────
JavaScript error values that flow through the pipeline, as classified by
the code itself (src/middleware/retry.ts `isRetryable`,
src/providers/base-provider.ts `fetchWithAuthRetry`):
`axios status` is an AxiosError whose `response?.status` is `status`
(`none` = no response); `trackingErr` is the synthetic TrackingError thrown
by CircuitBreakerMiddleware when a circuit is open (src/errors.ts);
`otherErr` is any other non-Axios error value. -/
inductive JsErr where
  | axios (status : Option Nat)
  | trackingErr
  | otherErr (code : Nat)
deriving DecidableEq, Repr

/- ─────────────── Circuit breaker (src/middleware/circuit-breaker.ts) ─── -/

namespace CircuitBreaker

/- `enum CircuitState` — OPEN is spelled `opened` (keyword clash). -/
inductive CbState where
  | closed
  | opened
  | halfOpen
deriving DecidableEq, Repr

/- `type CircuitInfo = { state; failures; lastFailureTime }` -/
structure CircuitInfo where
  state : CbState
  failures : Nat
  lastFailureTime : Int
deriving DecidableEq, Repr

/- Behaviour of the single `await next()` inside `execute`: it either
resolves, or rejects at wall-clock time `t` (the `Date.now()` recorded in
the catch block). -/
inductive CbNext where
  | succeeds
  | failsAt (t : Int)
deriving DecidableEq, Repr

/- How one `execute` call ends: `blockedErr` = the synthetic breaker-open
TrackingError (thrown without calling next), `success` = result of next
returned, `downstreamErr` = error of next rethrown. -/
inductive CbRes where
  | blockedErr
  | success
  | downstreamErr
deriving DecidableEq, Repr

structure CbOut where
  circuit : CircuitInfo
  nextInvoked : Bool
  result : CbRes
deriving DecidableEq, Repr

/- The `try { await next() ... } catch { ... }` block of
`CircuitBreakerMiddleware.execute`:
on success `state = CLOSED, failures = 0`; on failure `failures++`,
`lastFailureTime = Date.now()`, and `state = OPEN` once
`failures >= failureThreshold`. -/
def attemptNext (failureThreshold : Nat) (c : CircuitInfo) (nxt : CbNext) : CbOut :=
  match nxt with
  | .succeeds =>
      ⟨{ c with state := .closed, failures := 0 }, true, .success⟩
  | .failsAt t =>
      let c2 : CircuitInfo :=
        { c with failures := c.failures + 1, lastFailureTime := t }
      if failureThreshold ≤ c2.failures then
        ⟨{ c2 with state := .opened }, true, .downstreamErr⟩
      else
        ⟨c2, true, .downstreamErr⟩

/- `CircuitBreakerMiddleware.execute` for one key: `now` is the `Date.now()`
of the OPEN-state check.  While OPEN and `now - lastFailureTime <
resetTimeoutMs` the call throws the breaker-open error without invoking
next; once the timeout has elapsed the state moves to HALF_OPEN and the
call proceeds to `attemptNext`. -/
def execute (failureThreshold : Nat) (resetTimeoutMs : Int) (now : Int)
    (c : CircuitInfo) (nxt : CbNext) : CbOut :=
  match c.state with
  | .opened =>
      if resetTimeoutMs ≤ now - c.lastFailureTime then
        attemptNext failureThreshold { c with state := .halfOpen } nxt
      else
        ⟨c, false, .blockedErr⟩
  | _ => attemptNext failureThreshold c nxt

/- `getCircuit` creates `{ state: CLOSED, failures: 0, lastFailureTime: 0 }`
on first use of a key. -/
def cbInit : CircuitInfo := ⟨.closed, 0, 0⟩

/- The per-key circuit records reachable from the lazily created initial
record by any sequence of `execute` calls. -/
inductive Reachable (th : Nat) (rt : Int) : CircuitInfo → Prop where
  | init : Reachable th rt cbInit
  | step (c : CircuitInfo) (now : Int) (nxt : CbNext) :
      Reachable th rt c → Reachable th rt (execute th rt now c nxt).circuit

end CircuitBreaker

/- ─────────────── Retry executor (src/middleware/retry.ts) ───────────── -/

namespace Retry

/- `RetryMiddleware.isRetryable`: retry iff the error is an AxiosError and
`status === 429 || (status != null && status >= 500)`. -/
def isRetryable : JsErr → Bool
  | .axios status =>
      match status with
      | some s => s == 429 || decide (500 ≤ s)
      | none => false
  | .trackingErr => false
  | .otherErr _ => false

/- Observable events of one `execute` run: the k-th downstream invocation
(`await next()`), 0-indexed, and a backoff sleep of `ms` milliseconds. -/
inductive REv where
  | call (k : Nat)
  | sleep (ms : Nat)
deriving DecidableEq, Repr

structure RetryRun where
  trace : List REv
  /- `.error none` models the final `throw lastError` with `lastError`
  still `undefined` (reachable only when `maxAttempts = 0`). -/
  result : Except (Option JsErr) Nat
deriving DecidableEq, Repr

/- The `for (let attempt = 0; attempt < maxAttempts; attempt++)` loop of
`RetryMiddleware.execute`.  `rem` is the number of loop iterations left
(`maxAttempts - attempt`), `out k` the settlement of the k-th `next()`
call.  A failing attempt rethrows immediately when not retryable or when
it is the last attempt (`attempt === maxAttempts - 1`, i.e. `rem = 1`);
otherwise the loop sleeps `baseDelayMs * 2 ^ attempt` and continues. -/
def loopFrom (baseDelayMs : Nat) (out : Nat → Except JsErr Nat) :
    Nat → Nat → Option JsErr → List REv → RetryRun
  | 0, _, lastError, tr => ⟨tr, .error lastError⟩
  | rem + 1, attempt, _, tr =>
      let tr2 := tr ++ [REv.call attempt]
      match out attempt with
      | .ok v => ⟨tr2, .ok v⟩
      | .error e =>
          if !isRetryable e || rem == 0 then
            ⟨tr2, .error (some e)⟩
          else
            loopFrom baseDelayMs out rem (attempt + 1) (some e)
              (tr2 ++ [REv.sleep (baseDelayMs * 2 ^ attempt)])

/- `RetryMiddleware.execute` with `maxAttempts` and `baseDelayMs`. -/
def execute (maxAttempts baseDelayMs : Nat) (out : Nat → Except JsErr Nat) : RetryRun :=
  loopFrom baseDelayMs out maxAttempts 0 none []

/- The shape every retry trace has: calls `start, start+1, ...` (`m` of
them) with a sleep of `base * 2 ^ k` between call `k` and call `k + 1`,
and no sleep before the first call nor after the last. -/
def callsWithBackoff (base : Nat) : Nat → Nat → List REv
  | _, 0 => []
  | start, 1 => [REv.call start]
  | start, m + 2 =>
      REv.call start :: REv.sleep (base * 2 ^ start) ::
        callsWithBackoff base (start + 1) (m + 1)

def numCalls (l : List REv) : Nat :=
  l.countP fun e => match e with | .call _ => true | .sleep _ => false

/- Downstream that always fails with a non-retryable HTTP 400. -/
def downstream400 : Nat → Except JsErr Nat := fun _ => .error (.axios (some 400))

/- Downstream that fails with a retryable 503 once, then succeeds. -/
def downstream503ThenOk : Nat → Except JsErr Nat := fun k =>
  if k = 0 then .error (.axios (some 503)) else .ok 5

end Retry

/- ─────────── Middleware chain engine (src/tracker.ts) ────────────────── -/

namespace Chain

/- Trace events of one dispatched request: middleware pre/post hooks
(middlewares are identified by a numeric name) and terminal-call
invocations. -/
inductive ChEv where
  | before (name : Nat)
  | after (name : Nat)
  | term
deriving DecidableEq, Repr

/- Settlement of a middleware / terminal call (result or thrown error,
both abstracted to Nat). -/
abbrev COutcome := Except Nat Nat

/- A middleware body, as the finite interaction it performs with its
`next` continuation: return/throw an outcome, record a trace event, or
invoke `next()` and continue with its settlement.  This covers exactly
what `Middleware.execute(ctx, next)` can do to the chain. -/
inductive MwProg where
  | ret (o : COutcome)
  | emit (e : ChEv) (p : MwProg)
  | callNext (k : COutcome → MwProg)

/- The mutable environment closed over by `executeMiddlewareChain`:
`index` is the shared `let index = 0` cursor (note: shared by every
`next` invocation of the whole chain), `termCalls` counts invocations of
the terminal `execute`, `trace` records events in order. -/
structure ChSt where
  index : Nat
  termCalls : Nat
  trace : List ChEv
deriving DecidableEq, Repr

/- Interpreter for a middleware body running against the chain
`mws` with terminal outcomes `tOut` (settlement of the k-th terminal
invocation).  `fuel` bounds the interpretation depth; `none` = fuel ran
out.  The `.callNext` case is the body of `next()` in
`ShipmentTracker.executeMiddlewareChain`:
`if (index >= middlewares.length) return execute();`
`const middleware = middlewares[index++]; return middleware.execute(ctx, next)`. -/
def runMw (mws : List MwProg) (tOut : Nat → COutcome) :
    Nat → MwProg → ChSt → Option (ChSt × COutcome)
  | 0, _, _ => none
  | _ + 1, .ret o, s => some (s, o)
  | fuel + 1, .emit e p, s =>
      runMw mws tOut fuel p { s with trace := s.trace ++ [e] }
  | fuel + 1, .callNext k, s =>
      let stepRes : Option (ChSt × COutcome) :=
        if h : s.index < mws.length then
          runMw mws tOut fuel (mws.get ⟨s.index, h⟩) { s with index := s.index + 1 }
        else
          some ({ s with termCalls := s.termCalls + 1, trace := s.trace ++ [ChEv.term] },
                tOut s.termCalls)
      match stepRes with
      | none => none
      | some (s2, o) => runMw mws tOut fuel (k o) s2

/- One invocation of the `next()` closure from chain state `s` (same code
as the `.callNext` case of `runMw`). -/
def nextStep (mws : List MwProg) (tOut : Nat → COutcome) (fuel : Nat)
    (s : ChSt) : Option (ChSt × COutcome) :=
  if h : s.index < mws.length then
    runMw mws tOut fuel (mws.get ⟨s.index, h⟩) { s with index := s.index + 1 }
  else
    some ({ s with termCalls := s.termCalls + 1, trace := s.trace ++ [ChEv.term] },
          tOut s.termCalls)

def chInit : ChSt := ⟨0, 0, []⟩

/- `ShipmentTracker.executeMiddlewareChain`: empty list invokes the
terminal call directly, otherwise the chain starts with `next()` at
index 0. -/
def executeMiddlewareChain (mws : List MwProg) (tOut : Nat → COutcome)
    (fuel : Nat) : Option (ChSt × COutcome) :=
  if mws.length = 0 then
    some ({ chInit with termCalls := 1, trace := [ChEv.term] }, tOut 0)
  else
    nextStep mws tOut fuel chInit

/- A pure observability middleware (like LoggerMiddleware): record a
before event, call next once, record an after event, pass the outcome
through unchanged. -/
def recorder (name : Nat) : MwProg :=
  .emit (.before name) (.callNext fun o => .emit (.after name) (.ret o))

/- The re-invocation pattern of RetryMiddleware with two attempts: call
next; if it failed, call next once more and return that settlement. -/
def retryTwice : MwProg :=
  .callNext fun o =>
    match o with
    | .ok v => .ret (.ok v)
    | .error _ => .callNext fun o2 => .ret o2

/- Terminal behaviour used for the re-invocation scenario: the first
terminal call fails, the second succeeds. -/
def failThenOk : Nat → COutcome
  | 0 => .error 7
  | _ => .ok 42

end Chain

/- ───── Token lifecycle of BaseProvider (src/providers/base-provider.ts) ─

`getToken` runs on a single-threaded event loop: its synchronous prefix
(cache check, `tokenPromise` check, `tokenPromise = this.refreshToken(...)`)
executes atomically before the caller suspends on the promise.  The model
below replays exactly those branches: `arriveStep` is the synchronous
prefix of one `getToken()` call, `completeStep` the settlement of the
in-flight `refreshToken` promise (which stores the token in `tokenCache`
before resolving) together with the starter resuming through its
`try/finally` (which clears `tokenPromise` on success and failure alike)
and every joined caller receiving the same settlement. -/

namespace TokenLife

structure TokState where
  /- `tokenCache`, reduced to the token while valid (`none` = absent or
  expired). -/
  cachedToken : Option Nat
  /- `tokenPromise != null` -/
  inflight : Bool
  /- number of upstream token requests issued (`refreshToken` calls) -/
  refreshes : Nat
  /- callers currently awaiting `tokenPromise` -/
  waiters : Nat
  /- settlements received so far by completed `getToken()` calls, in
  order of delivery -/
  delivered : List (Except Nat Nat)
deriving DecidableEq, Repr

def tokInit : TokState := ⟨none, false, 0, 0, []⟩

/- Synchronous prefix of `getToken`:
`if (tokenCache && Date.now() < tokenCache.expiresAt) return token;`
`if (tokenPromise) return tokenPromise;`
`tokenPromise = this.refreshToken(baseUrl); ... await`. -/
def arriveStep (s : TokState) : TokState :=
  match s.cachedToken with
  | some t => { s with delivered := s.delivered ++ [Except.ok t] }
  | none =>
      if s.inflight then
        { s with waiters := s.waiters + 1 }
      else
        { s with inflight := true, refreshes := s.refreshes + 1,
                 waiters := s.waiters + 1 }

/- Settlement of the in-flight refresh with `outcome`: on success
`refreshToken` has stored the token in `tokenCache`; the starter's
`finally` clears `tokenPromise` regardless of the outcome; every waiter
receives the same settlement. -/
def completeStep (s : TokState) (outcome : Except Nat Nat) : TokState :=
  { s with
    cachedToken := match outcome with | .ok t => some t | .error _ => s.cachedToken,
    inflight := false,
    waiters := 0,
    delivered := s.delivered ++ List.replicate s.waiters outcome }

/- `n` calls of `getToken()` whose synchronous prefixes all run before the
refresh settles (the event-loop interleaving of concurrent callers). -/
def arriveN : Nat → TokState → TokState
  | 0, s => s
  | n + 1, s => arriveStep (arriveN n s)

end TokenLife

/- ───── Reactive re-auth on 401 (BaseProvider.fetchWithAuthRetry) ─────── -/

namespace AuthRetry

/- `(err as AxiosError).response?.status === 401` -/
def is401 : JsErr → Bool
  | .axios (some s) => s == 401
  | _ => false

structure AuthFetchRun where
  /- number of `fetchTrackingData` invocations -/
  fetchCalls : Nat
  /- whether `this.tokenCache = null` ran -/
  cacheInvalidated : Bool
  result : Except JsErr Nat
deriving DecidableEq, Repr

/- `BaseProvider.fetchWithAuthRetry`: try the data call; on a 401
invalidate the token cache, obtain a fresh token (`freshToken` is the
settlement of that `getToken` call) and retry the data call exactly once,
returning its settlement unconditionally; any non-401 error rethrows.
`fetchOut k` is the settlement of the k-th `fetchTrackingData` call. -/
def fetchWithAuthRetry (fetchOut : Nat → Except JsErr Nat)
    (freshToken : Except JsErr Nat) : AuthFetchRun :=
  match fetchOut 0 with
  | .ok v => ⟨1, false, .ok v⟩
  | .error e =>
      if is401 e then
        match freshToken with
        | .error ge => ⟨1, true, .error ge⟩
        | .ok _ => ⟨2, true, fetchOut 1⟩
      else
        ⟨1, false, .error e⟩

/- A data endpoint that answers 401 to every request. -/
def always401 : Nat → Except JsErr Nat := fun _ => .error (.axios (some 401))

end AuthRetry

/- ─────────────── Cache middleware (src/middleware/cache.ts) ──────────── -/

namespace Cache

structure CacheEntry where
  value : Nat
  expiresAt : Int
deriving DecidableEq, Repr

/- The `Map` of MemoryCacheAdapter as an association list with unique
keys (first binding wins, like the Map). -/
abbrev CacheMap := List (String × CacheEntry)

def eraseKey (key : String) (m : CacheMap) : CacheMap :=
  m.filter fun kv => !(kv.1 == key)

/- `MemoryCacheAdapter.get` at wall-clock `now`: absent key gives
`undefined`; `Date.now() > entry.expiresAt` deletes the entry and gives
`undefined`; otherwise the value.  Returns the updated map too. -/
def memGet (now : Int) (key : String) (m : CacheMap) : CacheMap × Option Nat :=
  match m.lookup key with
  | none => (m, none)
  | some entry =>
      if entry.expiresAt < now then (eraseKey key m, none)
      else (m, some entry.value)

/- `MemoryCacheAdapter.set` at wall-clock `now`:
`cache.set(key, { value, expiresAt: Date.now() + ttlMs })`. -/
def memSet (now ttlMs : Int) (key : String) (v : Nat) (m : CacheMap) : CacheMap :=
  (key, ⟨v, now + ttlMs⟩) :: eraseKey key m

structure CacheRun where
  cache : CacheMap
  nextInvoked : Bool
  result : Except JsErr Nat
deriving DecidableEq, Repr

/- `CacheMiddleware.execute` with key `courierCode:trackingNumber`
already computed: read at time `tGet`; on a hit return the cached value
without invoking next; on a miss await next (settling as `nxt`) and,
only on success, write the result at time `tSet` before returning it. -/
def execute (ttlMs : Int) (tGet tSet : Int) (key : String)
    (m : CacheMap) (nxt : Except JsErr Nat) : CacheRun :=
  match memGet tGet key m with
  | (m1, some v) => ⟨m1, false, .ok v⟩
  | (m1, none) =>
      match nxt with
      | .ok v => ⟨memSet tSet ttlMs key v m1, true, .ok v⟩
      | .error e => ⟨m1, true, .error e⟩

/- `CacheMiddleware.getCacheKey` -/
def getCacheKey (courierCode trackingNumber : String) : String :=
  courierCode ++ ":" ++ trackingNumber

end Cache

/- ─────────────── Batch dispatch (ShipmentTracker.trackBatch) ─────────── -/

namespace Batch

structure BatchItem where
  trackingNumber : String
  courierCode : Option String
deriving DecidableEq, Repr

/- The reason a `Promise.allSettled` slot was rejected with: an `Error`
instance, or a non-Error thrown value (stringified by the code). -/
inductive RejReason where
  | errObj (msg : String)
  | nonError (val : String)
deriving DecidableEq, Repr

/- `result.reason instanceof Error ? result.reason : new Error(String(result.reason))`,
reduced to the resulting error message. -/
def toErrorMsg : RejReason → String
  | .errObj m => m
  | .nonError v => v

/- `BatchTrackingResult`: tracking number plus exactly one of
`result` / `error` spread in by the mapping. -/
structure BatchEntry where
  trackingNumber : String
  result : Option Nat
  error : Option String
deriving DecidableEq, Repr

def mkBatchEntry (item : BatchItem) (settled : Except RejReason Nat) : BatchEntry :=
  match settled with
  | .ok v => ⟨item.trackingNumber, some v, none⟩
  | .error r => ⟨item.trackingNumber, none, some (toErrorMsg r)⟩

/- `ShipmentTracker.trackBatch`: each item is dispatched through
`this.track`; `out i` is the settlement (`Promise.allSettled`) of item
`i`'s dispatch; `results.map((result, i) => ...)` rebuilds one entry per
item in input order. -/
def trackBatchFrom (out : Nat → Except RejReason Nat) :
    Nat → List BatchItem → List BatchEntry
  | _, [] => []
  | i, item :: rest => mkBatchEntry item (out i) :: trackBatchFrom out (i + 1) rest

def trackBatch (items : List BatchItem) (out : Nat → Except RejReason Nat) :
    List BatchEntry :=
  trackBatchFrom out 0 items

/- A two-item batch where the first dispatch fulfills and the second
rejects (e.g. unregistered courier code). -/
def twoItems : List BatchItem := [⟨"TN1", none⟩, ⟨"TN2", some "nope"⟩]

def mixedSettlements : Nat → Except RejReason Nat := fun k =>
  if k = 0 then .ok 11 else .error (.errObj "no provider registered")

end Batch

/- ─────────────── Middleware-list construction (createTracker) ────────── -/

namespace Config

/- The value of one `middlewares` entry in `CreateTrackerOptions`:
absent (`undefined`), literal `true`, literal `false`, or an options
object. -/
inductive Toggle where
  | undef
  | tru
  | fls
  | obj
deriving DecidableEq, Repr

/- JS truthiness of a toggle value (`if (mwConfig.cache)`). -/
def truthy : Toggle → Bool
  | .tru => true
  | .obj => true
  | .undef => false
  | .fls => false

/- `mwConfig.xxx !== false` -/
def notFalse (t : Toggle) : Bool := !(t == Toggle.fls)

structure MiddlewaresConfig where
  cache : Toggle
  retry : Toggle
  rateLimiter : Toggle
  circuitBreaker : Toggle
  logger : Toggle
deriving DecidableEq, Repr

/- `options?.middlewares ?? {}` with every entry absent -/
def emptyMwConfig : MiddlewaresConfig := ⟨.undef, .undef, .undef, .undef, .undef⟩

inductive MwTag where
  | rateLimiter
  | retry
  | circuitBreaker
  | cache
  | logger
deriving DecidableEq, Repr

/- The `middleware.push(...)` sequence of `createTracker`: rate limiter,
retry and circuit breaker are pushed unless the toggle is literally
`false`; cache and logger are pushed only when the toggle is truthy. -/
def buildMiddlewares (mwConfig : MiddlewaresConfig) : List MwTag :=
  (if notFalse mwConfig.rateLimiter then [MwTag.rateLimiter] else [])
    ++ (if notFalse mwConfig.retry then [MwTag.retry] else [])
    ++ (if notFalse mwConfig.circuitBreaker then [MwTag.circuitBreaker] else [])
    ++ (if truthy mwConfig.cache then [MwTag.cache] else [])
    ++ (if truthy mwConfig.logger then [MwTag.logger] else [])

/- `createTracker(options)` restricted to its middleware list:
`options?.middlewares ?? {}` then the push sequence. -/
def createTrackerMiddlewares (middlewares : Option MiddlewaresConfig) : List MwTag :=
  buildMiddlewares (middlewares.getD emptyMwConfig)

end Config

/- ═══════════════════════════ Theorems ══════════════════════════════════ -/

/- One `execute` step preserves the breaker invariant: a non-CLOSED record
has at least `failureThreshold` recorded failures. -/
lemma cb_step_preserves (th : Nat) (rt now : Int) (c : CircuitBreaker.CircuitInfo)
    (nxt : CircuitBreaker.CbNext)
    (ih : c.state ≠ CircuitBreaker.CbState.closed → th ≤ c.failures) :
    (CircuitBreaker.execute th rt now c nxt).circuit.state ≠ CircuitBreaker.CbState.closed →
      th ≤ (CircuitBreaker.execute th rt now c nxt).circuit.failures := by
  intro hs
  cases hc : c.state with
  | closed =>
      cases nxt with
      | succeeds => simp [CircuitBreaker.execute, CircuitBreaker.attemptNext, hc] at hs
      | failsAt t =>
          by_cases hth : th ≤ c.failures + 1
          · simp [CircuitBreaker.execute, CircuitBreaker.attemptNext, hc, hth]
          · simp [CircuitBreaker.execute, CircuitBreaker.attemptNext, hc, hth] at hs
  | opened =>
      by_cases hrt : rt ≤ now - c.lastFailureTime
      · cases nxt with
        | succeeds => simp [CircuitBreaker.execute, CircuitBreaker.attemptNext, hc, hrt] at hs
        | failsAt t =>
            by_cases hth : th ≤ c.failures + 1
            · simp [CircuitBreaker.execute, CircuitBreaker.attemptNext, hc, hrt, hth]
            · have hle : th ≤ c.failures := ih (by simp [hc])
              simp [CircuitBreaker.execute, CircuitBreaker.attemptNext, hc, hrt, hth]
              omega
      · simp only [CircuitBreaker.execute, hc, if_neg hrt]
        exact ih (by simp [hc])
  | halfOpen =>
      cases nxt with
      | succeeds => simp [CircuitBreaker.execute, CircuitBreaker.attemptNext, hc] at hs
      | failsAt t =>
          by_cases hth : th ≤ c.failures + 1
          · simp [CircuitBreaker.execute, CircuitBreaker.attemptNext, hc, hth]
          · have hle : th ≤ c.failures := ih (by simp [hc])
            simp [CircuitBreaker.execute, CircuitBreaker.attemptNext, hc, hth]
            omega

/-- Claim C2: the per-key circuit record follows the specified state
machine under `execute`: from CLOSED a failing call moves the record to
OPEN exactly when the consecutive-failure count (`failures + 1` after the
increment) reaches `failureThreshold`, and the failing call did invoke
next; while OPEN with `now - lastFailureAt < resetTimeoutMs` every call
returns the breaker-open error with the record unchanged and without
invoking next; the first call at or past the reset timeout runs as a
probe on the record moved to HALF_OPEN and invokes next; a successful
probe sets the state to CLOSED with `failures = 0`; a failed probe (with
the reachable-record property `failureThreshold ≤ failures`) returns the
record to OPEN and updates `lastFailureAt` to the failure time. -/
theorem claim_C2 (th : Nat) (rt now t : Int) (c : CircuitBreaker.CircuitInfo) :
    (c.state = CircuitBreaker.CbState.closed →
      ((CircuitBreaker.execute th rt now c (CircuitBreaker.CbNext.failsAt t)).circuit.state
          = CircuitBreaker.CbState.opened ↔ th ≤ c.failures + 1)
      ∧ (CircuitBreaker.execute th rt now c
          (CircuitBreaker.CbNext.failsAt t)).nextInvoked = true)
    ∧ (∀ nxt, c.state = CircuitBreaker.CbState.opened → now - c.lastFailureTime < rt →
        CircuitBreaker.execute th rt now c nxt
          = ⟨c, false, CircuitBreaker.CbRes.blockedErr⟩)
    ∧ (∀ nxt, c.state = CircuitBreaker.CbState.opened → rt ≤ now - c.lastFailureTime →
        CircuitBreaker.execute th rt now c nxt
            = CircuitBreaker.attemptNext th
                { c with state := CircuitBreaker.CbState.halfOpen } nxt
        ∧ (CircuitBreaker.execute th rt now c nxt).nextInvoked = true)
    ∧ (c.state = CircuitBreaker.CbState.opened → rt ≤ now - c.lastFailureTime →
        (CircuitBreaker.execute th rt now c CircuitBreaker.CbNext.succeeds).circuit.state
            = CircuitBreaker.CbState.closed
        ∧ (CircuitBreaker.execute th rt now c
            CircuitBreaker.CbNext.succeeds).circuit.failures = 0)
    ∧ (c.state = CircuitBreaker.CbState.opened → rt ≤ now - c.lastFailureTime →
        th ≤ c.failures →
        (CircuitBreaker.execute th rt now c (CircuitBreaker.CbNext.failsAt t)).circuit
          = ⟨CircuitBreaker.CbState.opened, c.failures + 1, t⟩) := by
  refine ⟨?_, ?_, ?_, ?_, ?_⟩
  · intro hc
    refine ⟨?_, ?_⟩ <;> by_cases hth : th ≤ c.failures + 1 <;>
      simp [CircuitBreaker.execute, CircuitBreaker.attemptNext, hc, hth]
  · intro nxt hc hrt
    have hno : ¬ rt ≤ now - c.lastFailureTime := by omega
    simp [CircuitBreaker.execute, hc, hno]
  · intro nxt hc hrt
    refine ⟨by simp [CircuitBreaker.execute, hc, hrt], ?_⟩
    cases nxt with
    | succeeds => simp [CircuitBreaker.execute, CircuitBreaker.attemptNext, hc, hrt]
    | failsAt t2 =>
        by_cases hth : th ≤ c.failures + 1 <;>
          simp [CircuitBreaker.execute, CircuitBreaker.attemptNext, hc, hrt, hth]
  · intro hc hrt
    simp [CircuitBreaker.execute, CircuitBreaker.attemptNext, hc, hrt]
  · intro hc hrt hth
    have hth2 : th ≤ c.failures + 1 := by omega
    simp [CircuitBreaker.execute, CircuitBreaker.attemptNext, hc, hrt, hth2]

/-- Claim C2 witness: with `failureThreshold = 2` and `resetTimeoutMs = 10`,
a CLOSED record with one prior failure opens on the next failure; an OPEN
record is blocked at `now = 7` (2ms after the failure); at `now = 20` a
failed probe reopens the record with the failure time updated to 21. -/
theorem claim_C2_witness :
    ((CircuitBreaker.execute 2 10 20 ⟨CircuitBreaker.CbState.closed, 1, 0⟩
        (CircuitBreaker.CbNext.failsAt 20)).circuit.state = CircuitBreaker.CbState.opened)
    ∧ (CircuitBreaker.execute 2 10 7 ⟨CircuitBreaker.CbState.opened, 2, 5⟩
        CircuitBreaker.CbNext.succeeds
          = ⟨⟨CircuitBreaker.CbState.opened, 2, 5⟩, false, CircuitBreaker.CbRes.blockedErr⟩)
    ∧ ((CircuitBreaker.execute 2 10 20 ⟨CircuitBreaker.CbState.opened, 2, 5⟩
          (CircuitBreaker.CbNext.failsAt 21)).circuit
        = ⟨CircuitBreaker.CbState.opened, 3, 21⟩) := by
  refine ⟨?_, ?_, ?_⟩
  · exact ((claim_C2 2 10 20 20 ⟨CircuitBreaker.CbState.closed, 1, 0⟩).1 rfl).1.mpr
      (by decide)
  · exact (claim_C2 2 10 7 0 ⟨CircuitBreaker.CbState.opened, 2, 5⟩).2.1
      CircuitBreaker.CbNext.succeeds rfl (by decide)
  · exact (claim_C2 2 10 20 21 ⟨CircuitBreaker.CbState.opened, 2, 5⟩).2.2.2.2 rfl
      (by decide) (by decide)

/-- Claim C10: every circuit record reachable from the lazily created
initial record satisfies: whenever the state is OPEN or HALF_OPEN (that
is, not CLOSED), the failure counter is at least `failureThreshold`; and
one `execute` step yields a record with `failures = 0` only by leaving
the counter unchanged (already 0, or a blocked call) or by a successful
downstream call, which simultaneously sets the state to CLOSED. -/
theorem claim_C10 (th : Nat) (rt : Int) :
    (∀ c : CircuitBreaker.CircuitInfo, CircuitBreaker.Reachable th rt c →
        c.state ≠ CircuitBreaker.CbState.closed → th ≤ c.failures)
    ∧ (∀ (c : CircuitBreaker.CircuitInfo) (now : Int) (nxt : CircuitBreaker.CbNext),
        (CircuitBreaker.execute th rt now c nxt).circuit.failures = 0 →
          (CircuitBreaker.execute th rt now c nxt).circuit.failures = c.failures
          ∨ (nxt = CircuitBreaker.CbNext.succeeds
             ∧ (CircuitBreaker.execute th rt now c nxt).nextInvoked = true
             ∧ (CircuitBreaker.execute th rt now c nxt).circuit.state
                 = CircuitBreaker.CbState.closed)) := by
  constructor
  · intro c h
    induction h with
    | init => intro hs; simp [CircuitBreaker.cbInit] at hs
    | step c now nxt hr ih => exact cb_step_preserves th rt now c nxt ih
  · intro c now nxt h0
    cases nxt with
    | succeeds =>
        cases hc : c.state with
        | opened =>
            by_cases hrt : rt ≤ now - c.lastFailureTime
            · right
              simp [CircuitBreaker.execute, CircuitBreaker.attemptNext, hc, hrt]
            · left
              simp [CircuitBreaker.execute, hc, hrt]
        | closed =>
            right
            simp [CircuitBreaker.execute, CircuitBreaker.attemptNext, hc]
        | halfOpen =>
            right
            simp [CircuitBreaker.execute, CircuitBreaker.attemptNext, hc]
    | failsAt t =>
        left
        cases hc : c.state with
        | opened =>
            by_cases hrt : rt ≤ now - c.lastFailureTime
            · exfalso
              by_cases hth : th ≤ c.failures + 1 <;>
                simp [CircuitBreaker.execute, CircuitBreaker.attemptNext,
                  hc, hrt, hth] at h0
            · simp [CircuitBreaker.execute, hc, hrt]
        | closed =>
            exfalso
            by_cases hth : th ≤ c.failures + 1 <;>
              simp [CircuitBreaker.execute, CircuitBreaker.attemptNext, hc, hth] at h0
        | halfOpen =>
            exfalso
            by_cases hth : th ≤ c.failures + 1 <;>
              simp [CircuitBreaker.execute, CircuitBreaker.attemptNext, hc, hth] at h0

/-- Claim C10 witness: with threshold 1, the record obtained from the
initial CLOSED record by one failing call is OPEN with one failure, so
the invariant gives `1 ≤ failures`; and a successful call on a CLOSED
record with 3 failures resets the counter through the success branch. -/
theorem claim_C10_witness :
    (1 ≤ (⟨CircuitBreaker.CbState.opened, 1, 5⟩ : CircuitBreaker.CircuitInfo).failures)
    ∧ ((CircuitBreaker.execute 1 10 0 ⟨CircuitBreaker.CbState.closed, 3, 0⟩
          CircuitBreaker.CbNext.succeeds).circuit.failures
         = (⟨CircuitBreaker.CbState.closed, 3, 0⟩ : CircuitBreaker.CircuitInfo).failures
       ∨ (CircuitBreaker.CbNext.succeeds = CircuitBreaker.CbNext.succeeds
          ∧ (CircuitBreaker.execute 1 10 0 ⟨CircuitBreaker.CbState.closed, 3, 0⟩
               CircuitBreaker.CbNext.succeeds).nextInvoked = true
          ∧ (CircuitBreaker.execute 1 10 0 ⟨CircuitBreaker.CbState.closed, 3, 0⟩
               CircuitBreaker.CbNext.succeeds).circuit.state
              = CircuitBreaker.CbState.closed)) := by
  constructor
  · refine (claim_C10 1 10).1 ⟨CircuitBreaker.CbState.opened, 1, 5⟩ ?_ (by decide)
    have h := @CircuitBreaker.Reachable.step 1 10 CircuitBreaker.cbInit 0
      (CircuitBreaker.CbNext.failsAt 5) (@CircuitBreaker.Reachable.init 1 10)
    have h2 : (CircuitBreaker.execute 1 10 0 CircuitBreaker.cbInit
        (CircuitBreaker.CbNext.failsAt 5)).circuit
        = ⟨CircuitBreaker.CbState.opened, 1, 5⟩ := by decide
    exact h2 ▸ h
  · exact (claim_C10 1 10).2 ⟨CircuitBreaker.CbState.closed, 3, 0⟩ 0
      CircuitBreaker.CbNext.succeeds (by decide)

/- `callsWithBackoff` contains exactly `m` downstream invocations. -/
lemma numCalls_callsWithBackoff (base : Nat) :
    ∀ (m start : Nat), Retry.numCalls (Retry.callsWithBackoff base start m) = m
  | 0, _ => rfl
  | 1, _ => rfl
  | m + 2, start => by
      have ih := numCalls_callsWithBackoff base (m + 1) (start + 1)
      simp only [Retry.callsWithBackoff]
      simp [Retry.numCalls, List.countP_cons] at ih ⊢
      omega

/- The retry loop always produces a trace of the `callsWithBackoff` shape
starting at the current attempt index, settling as the last attempt did. -/
lemma retry_loopFrom_shape (base : Nat) (out : Nat → Except STrack.JsErr Nat) :
    ∀ (rem attempt : Nat) (lastError : Option STrack.JsErr) (tr : List Retry.REv),
      ∃ m, m ≤ rem ∧ (rem ≠ 0 → m ≠ 0) ∧
        Retry.loopFrom base out rem attempt lastError tr
          = ⟨tr ++ Retry.callsWithBackoff base attempt m,
             if m = 0 then Except.error lastError
             else (out (attempt + (m - 1))).mapError some⟩ := by
  intro rem
  induction rem with
  | zero =>
      intro attempt lastError tr
      exact ⟨0, le_refl 0, fun h => absurd rfl h,
        by simp [Retry.loopFrom, Retry.callsWithBackoff]⟩
  | succ rem ih =>
      intro attempt lastError tr
      cases hout : out attempt with
      | ok v =>
          refine ⟨1, by omega, fun _ => one_ne_zero, ?_⟩
          simp [Retry.loopFrom, hout, Retry.callsWithBackoff, Except.mapError]
      | error e =>
          by_cases hcond : (!Retry.isRetryable e || rem == 0) = true
          · refine ⟨1, by omega, fun _ => one_ne_zero, ?_⟩
            simp [Retry.loopFrom, hout, hcond, Retry.callsWithBackoff, Except.mapError]
          · have hrem : rem ≠ 0 := by
              intro h
              simp [h] at hcond
            obtain ⟨m2, hm2le, hm2ne, heq⟩ :=
              ih (attempt + 1) (some e)
                ((tr ++ [Retry.REv.call attempt])
                  ++ [Retry.REv.sleep (base * 2 ^ attempt)])
            have hm2 : m2 ≠ 0 := hm2ne hrem
            obtain ⟨k, rfl⟩ : ∃ k, m2 = k + 1 := ⟨m2 - 1, by omega⟩
            refine ⟨k + 2, by omega, fun _ => by omega, ?_⟩
            have hstep : Retry.loopFrom base out (rem + 1) attempt lastError tr
                = Retry.loopFrom base out rem (attempt + 1) (some e)
                    ((tr ++ [Retry.REv.call attempt])
                      ++ [Retry.REv.sleep (base * 2 ^ attempt)]) := by
              simp [Retry.loopFrom, hout, hcond]
            rw [hstep, heq]
            simp only [Retry.callsWithBackoff]
            have harg : attempt + 1 + k = attempt + (k + 1) := by omega
            simp [List.append_assoc, harg]

/-- Claim C5: every `RetryMiddleware.execute` run makes some number `m` of
downstream invocations with `m ≤ maxAttempts`; its trace is exactly calls
`0, …, m - 1` with a backoff sleep of `baseDelayMs * 2 ^ k` after failing
attempt `k` and before attempt `k + 1` — between attempts only, never
before the first attempt and never after the last; and the run settles
exactly as the last attempt did, so after the last attempt fails the most
recent error propagates unchanged (not wrapped). -/
theorem claim_C5 (maxAttempts baseDelayMs : Nat) (out : Nat → Except STrack.JsErr Nat) :
    ∃ m, m ≤ maxAttempts
      ∧ (Retry.execute maxAttempts baseDelayMs out).trace
          = Retry.callsWithBackoff baseDelayMs 0 m
      ∧ Retry.numCalls (Retry.execute maxAttempts baseDelayMs out).trace = m
      ∧ (Retry.execute maxAttempts baseDelayMs out).result
          = (if m = 0 then Except.error none else (out (m - 1)).mapError some) := by
  obtain ⟨m, hle, _, heq⟩ :=
    retry_loopFrom_shape baseDelayMs out maxAttempts 0 none []
  refine ⟨m, hle, ?_, ?_, ?_⟩
  · simp [Retry.execute, heq]
  · simp [Retry.execute, heq, numCalls_callsWithBackoff]
  · simp [Retry.execute, heq]

lemma numCalls_append (l1 l2 : List Retry.REv) :
    Retry.numCalls (l1 ++ l2) = Retry.numCalls l1 + Retry.numCalls l2 := by
  simp [Retry.numCalls, List.countP_append]

/-- Claim C3: `isRetryable` holds exactly on errors carrying an HTTP
status of 429 or at least 500 (in particular the breaker-open
TrackingError is never retryable); a first attempt failing with a
non-retryable error ends the run after exactly one downstream invocation
with that error propagated unchanged; and with at least two attempts
available, a second downstream invocation happens if and only if the
first failure was retryable. -/
theorem claim_C3 :
    (∀ e, Retry.isRetryable e = true ↔
        ∃ s, e = JsErr.axios (some s) ∧ (s = 429 ∨ 500 ≤ s))
    ∧ Retry.isRetryable JsErr.trackingErr = false
    ∧ (∀ (maxA base : Nat) (out : Nat → Except JsErr Nat) (e : JsErr),
        1 ≤ maxA → out 0 = Except.error e → Retry.isRetryable e = false →
          (Retry.execute maxA base out).trace = [Retry.REv.call 0]
          ∧ (Retry.execute maxA base out).result = Except.error (some e))
    ∧ (∀ (maxA base : Nat) (out : Nat → Except JsErr Nat) (e : JsErr),
        2 ≤ maxA → out 0 = Except.error e →
          (2 ≤ Retry.numCalls (Retry.execute maxA base out).trace
            ↔ Retry.isRetryable e = true)) := by
  refine ⟨?_, by simp [Retry.isRetryable], ?_, ?_⟩
  · intro e
    cases e with
    | axios status =>
        cases status with
        | none => simp [Retry.isRetryable]
        | some s => simp [Retry.isRetryable]
    | trackingErr => simp [Retry.isRetryable]
    | otherErr c => simp [Retry.isRetryable]
  · intro maxA base out e hmax hout hret
    obtain ⟨rem, rfl⟩ : ∃ rem, maxA = rem + 1 := ⟨maxA - 1, by omega⟩
    constructor <;> simp [Retry.execute, Retry.loopFrom, hout, hret]
  · intro maxA base out e hmax hout
    obtain ⟨rem, rfl⟩ : ∃ rem, maxA = rem + 2 := ⟨maxA - 2, by omega⟩
    by_cases hret : Retry.isRetryable e = true
    · simp only [hret, iff_true]
      have hstep : Retry.execute (rem + 2) base out
          = Retry.loopFrom base out (rem + 1) 1 (some e)
              [Retry.REv.call 0, Retry.REv.sleep (base * 2 ^ 0)] := by
        simp [Retry.execute, Retry.loopFrom, hout, hret]
      obtain ⟨m2, _, hm2ne, heq⟩ := retry_loopFrom_shape base out (rem + 1) 1 (some e)
        [Retry.REv.call 0, Retry.REv.sleep (base * 2 ^ 0)]
      have hm2 : m2 ≠ 0 := hm2ne (by omega)
      rw [hstep, heq]
      have hone : Retry.numCalls [Retry.REv.call 0, Retry.REv.sleep (base * 2 ^ 0)] = 1 := rfl
      show 2 ≤ Retry.numCalls ([Retry.REv.call 0, Retry.REv.sleep (base * 2 ^ 0)]
        ++ Retry.callsWithBackoff base 1 m2)
      rw [numCalls_append, numCalls_callsWithBackoff, hone]
      omega
    · have hretf : Retry.isRetryable e = false := by
        revert hret
        cases Retry.isRetryable e <;> simp
      have hrun : Retry.execute (rem + 2) base out
          = ⟨[Retry.REv.call 0], Except.error (some e)⟩ := by
        simp [Retry.execute, Retry.loopFrom, hout, hretf]
      simp [hrun, hretf, Retry.numCalls]

/-- Claim C3 witness: a 500 is retryable; a downstream always failing
with 400 ends after exactly one invocation with the 400 propagated; a
downstream failing once with 503 is invoked a second time. -/
theorem claim_C3_witness :
    Retry.isRetryable (JsErr.axios (some 500)) = true
    ∧ ((Retry.execute 3 1000 Retry.downstream400).trace = [Retry.REv.call 0]
       ∧ (Retry.execute 3 1000 Retry.downstream400).result
           = Except.error (some (JsErr.axios (some 400))))
    ∧ 2 ≤ Retry.numCalls (Retry.execute 3 1000 Retry.downstream503ThenOk).trace := by
  refine ⟨?_, ?_, ?_⟩
  · exact (claim_C3.1 (JsErr.axios (some 500))).mpr ⟨500, rfl, Or.inr (by omega)⟩
  · exact claim_C3.2.2.1 3 1000 Retry.downstream400 (JsErr.axios (some 400))
      (by omega) rfl (by decide)
  · exact (claim_C3.2.2.2 3 1000 Retry.downstream503ThenOk (JsErr.axios (some 503))
      (by omega) rfl).mpr (by decide)

/- After at least one `getToken` arrival with no valid cached token, the
single-flight state is pinned: one refresh in flight, one upstream
request total, every arrival joined as a waiter. -/
lemma tok_arriveN_state : ∀ n : Nat, 1 ≤ n →
    TokenLife.arriveN n TokenLife.tokInit = ⟨none, true, 1, n, []⟩ := by
  intro n
  induction n with
  | zero => omega
  | succ k ih =>
      intro _
      by_cases hk : 1 ≤ k
      · simp only [TokenLife.arriveN, ih hk]
        simp [TokenLife.arriveStep]
      · have hk0 : k = 0 := by omega
        subst hk0
        simp [TokenLife.arriveN, TokenLife.arriveStep, TokenLife.tokInit]

/-- Claim C4: for `n` concurrent `getToken()` calls on one adapter while
no valid token is cached (all synchronous prefixes run before the refresh
settles), exactly one upstream token request is issued; when the refresh
settles, all `n` callers receive its settlement — in particular a failure
propagates to every waiter; the in-flight handle is cleared by the
`finally` regardless of the outcome; and after a failed refresh a later
`getToken()` starts a fresh (second) upstream request. -/
theorem claim_C4 (n : Nat) (o : Except Nat Nat) : 1 ≤ n →
    (TokenLife.arriveN n TokenLife.tokInit).refreshes = 1
    ∧ (TokenLife.completeStep (TokenLife.arriveN n TokenLife.tokInit) o).delivered
        = List.replicate n o
    ∧ (TokenLife.completeStep (TokenLife.arriveN n TokenLife.tokInit) o).inflight = false
    ∧ (∀ e, o = Except.error e →
        (TokenLife.arriveStep
          (TokenLife.completeStep (TokenLife.arriveN n TokenLife.tokInit) o)).refreshes
          = 2) := by
  intro hn
  rw [tok_arriveN_state n hn]
  refine ⟨rfl, by simp [TokenLife.completeStep], by simp [TokenLife.completeStep], ?_⟩
  intro e ho
  subst ho
  simp [TokenLife.completeStep, TokenLife.arriveStep]

/-- Claim C4 witness: three concurrent callers and a failing refresh. -/
theorem claim_C4_witness :
    1 ≤ 3
    ∧ ((TokenLife.arriveN 3 TokenLife.tokInit).refreshes = 1
       ∧ (TokenLife.completeStep (TokenLife.arriveN 3 TokenLife.tokInit)
            (Except.error 9)).delivered = List.replicate 3 (Except.error 9)
       ∧ (TokenLife.completeStep (TokenLife.arriveN 3 TokenLife.tokInit)
            (Except.error 9)).inflight = false
       ∧ (∀ e, (Except.error 9 : Except Nat Nat) = Except.error e →
           (TokenLife.arriveStep
             (TokenLife.completeStep (TokenLife.arriveN 3 TokenLife.tokInit)
               (Except.error 9))).refreshes = 2)) :=
  ⟨by omega, claim_C4 3 (Except.error 9) (by omega)⟩

/-- Claim C6: when a data call made with a cached token fails with HTTP
401, `fetchWithAuthRetry` invalidates the cached token and retries the
data call exactly once with a freshly obtained token (two
`fetchTrackingData` invocations in total); the retried call's settlement
is returned unconditionally, so a second 401 propagates unchanged from
this layer — still the 401 authentication failure — and is not retried
again here. -/
theorem claim_C6 (fetchOut : Nat → Except JsErr Nat) (freshToken : Except JsErr Nat)
    (e : JsErr) (t : Nat) :
    fetchOut 0 = Except.error e → AuthRetry.is401 e = true → freshToken = Except.ok t →
      (AuthRetry.fetchWithAuthRetry fetchOut freshToken).fetchCalls = 2
      ∧ (AuthRetry.fetchWithAuthRetry fetchOut freshToken).cacheInvalidated = true
      ∧ (AuthRetry.fetchWithAuthRetry fetchOut freshToken).result = fetchOut 1
      ∧ (∀ e2, fetchOut 1 = Except.error e2 →
          (AuthRetry.fetchWithAuthRetry fetchOut freshToken).result = Except.error e2) := by
  intro h0 h401 hft
  refine ⟨?_, ?_, ?_, ?_⟩ <;>
    simp [AuthRetry.fetchWithAuthRetry, h0, h401, hft]

/-- Claim C6 witness: an endpoint answering 401 to both calls, with a
successful token refresh in between: two fetches, cache invalidated, the
second 401 propagated. -/
theorem claim_C6_witness :
    (AuthRetry.fetchWithAuthRetry AuthRetry.always401 (Except.ok 9)).fetchCalls = 2
    ∧ (AuthRetry.fetchWithAuthRetry AuthRetry.always401 (Except.ok 9)).cacheInvalidated = true
    ∧ (AuthRetry.fetchWithAuthRetry AuthRetry.always401
        (Except.ok 9)).result = AuthRetry.always401 1
    ∧ (∀ e2, AuthRetry.always401 1 = Except.error e2 →
        (AuthRetry.fetchWithAuthRetry AuthRetry.always401
          (Except.ok 9)).result = Except.error e2) :=
  claim_C6 AuthRetry.always401 (Except.ok 9) (JsErr.axios (some 401)) 9
    rfl (by decide) rfl

/- Deleting a key from the cache map makes lookups of that key miss. -/
lemma lookup_eraseKey (key : String) (m : Cache.CacheMap) :
    (Cache.eraseKey key m).lookup key = none := by
  induction m with
  | nil => rfl
  | cons kv rest ih =>
      obtain ⟨k, entry⟩ := kv
      cases hb : k == key with
      | true => simpa [Cache.eraseKey, List.filter_cons, hb] using ih
      | false =>
          have hne : (key == k) = false := by
            simp only [beq_eq_false_iff_ne] at hb ⊢
            exact fun h => hb h.symm
          simp only [Cache.eraseKey, List.filter_cons, hb] at ih ⊢
          simp [List.lookup, hne, ih]

/-- Claim C7: a first `CacheMiddleware.execute` on a fresh key invokes
downstream and returns its successful value, and a second execution with
the same key reading within the TTL does not invoke downstream and
returns a value equal to the first's (downstream invoked exactly once
over the two calls); when downstream throws, the cache map is left
exactly as the read left it — the cache is never populated on failure;
and a read past `expiresAt` returns absent and evicts the entry. -/
theorem claim_C7 :
    (∀ (ttl t1g t1s t2g t2s : Int) (key : String) (m0 : Cache.CacheMap) (v : Nat)
        (nxt2 : Except JsErr Nat),
      m0.lookup key = none → t2g ≤ t1s + ttl →
        (Cache.execute ttl t1g t1s key m0 (Except.ok v)).nextInvoked = true
        ∧ (Cache.execute ttl t1g t1s key m0 (Except.ok v)).result = Except.ok v
        ∧ (Cache.execute ttl t2g t2s key
            (Cache.execute ttl t1g t1s key m0 (Except.ok v)).cache nxt2).nextInvoked = false
        ∧ (Cache.execute ttl t2g t2s key
            (Cache.execute ttl t1g t1s key m0 (Except.ok v)).cache nxt2).result
            = Except.ok v)
    ∧ (∀ (ttl tg ts : Int) (key : String) (m : Cache.CacheMap) (e : JsErr),
        (Cache.memGet tg key m).2 = none →
          Cache.execute ttl tg ts key m (Except.error e)
            = ⟨(Cache.memGet tg key m).1, true, Except.error e⟩)
    ∧ (∀ (now : Int) (key : String) (m : Cache.CacheMap) (entry : Cache.CacheEntry),
        m.lookup key = some entry → entry.expiresAt < now →
          Cache.memGet now key m = (Cache.eraseKey key m, none)
          ∧ (Cache.eraseKey key m).lookup key = none) := by
  refine ⟨?_, ?_, ?_⟩
  · intro ttl t1g t1s t2g t2s key m0 v nxt2 hlk httl
    have hnotlt : ¬ ((t1s + ttl) < t2g) := by omega
    refine ⟨?_, ?_, ?_, ?_⟩ <;>
      simp [Cache.execute, Cache.memGet, Cache.memSet, hlk, List.lookup, hnotlt]
  · intro ttl tg ts key m e hget
    have hpair : Cache.memGet tg key m = ((Cache.memGet tg key m).1, none) := by
      rw [← hget]
    rw [Cache.execute, hpair]
  · intro now key m entry hlk hexp
    exact ⟨by simp [Cache.memGet, hlk, hexp], lookup_eraseKey key m⟩

/-- Claim C7 witness: key `ups:1Z` on an empty cache, TTL 300000ms; the
second read happens 90ms after the write; a failing downstream on an
empty cache leaves the map empty; an entry that expired at 50 is evicted
by a read at 51. -/
theorem claim_C7_witness :
    ((Cache.execute 300000 0 10 "ups:1Z" [] (Except.ok 5)).nextInvoked = true
      ∧ (Cache.execute 300000 0 10 "ups:1Z" [] (Except.ok 5)).result = Except.ok 5
      ∧ (Cache.execute 300000 100 110 "ups:1Z"
          (Cache.execute 300000 0 10 "ups:1Z" [] (Except.ok 5)).cache
          (Except.error (JsErr.otherErr 0))).nextInvoked = false
      ∧ (Cache.execute 300000 100 110 "ups:1Z"
          (Cache.execute 300000 0 10 "ups:1Z" [] (Except.ok 5)).cache
          (Except.error (JsErr.otherErr 0))).result = Except.ok 5)
    ∧ (Cache.execute 300000 0 10 "ups:1Z" [] (Except.error (JsErr.otherErr 1))
        = ⟨(Cache.memGet 0 "ups:1Z" []).1, true, Except.error (JsErr.otherErr 1)⟩)
    ∧ (Cache.memGet 51 "k" [("k", ⟨1, 50⟩)]
          = (Cache.eraseKey "k" [("k", ⟨1, 50⟩)], none)
       ∧ (Cache.eraseKey "k" [("k", (⟨1, 50⟩ : Cache.CacheEntry))]).lookup "k" = none) :=
  ⟨claim_C7.1 300000 0 10 100 110 "ups:1Z" [] 5 (Except.error (JsErr.otherErr 0))
      rfl (by omega),
   claim_C7.2.1 300000 0 10 "ups:1Z" [] (JsErr.otherErr 1) rfl,
   claim_C7.2.2 51 "k" [("k", ⟨1, 50⟩)] ⟨1, 50⟩ rfl (by decide)⟩

lemma trackBatchFrom_length (out : Nat → Except Batch.RejReason Nat) :
    ∀ (j : Nat) (items : List Batch.BatchItem),
      (Batch.trackBatchFrom out j items).length = items.length := by
  intro j items
  induction items generalizing j with
  | nil => rfl
  | cons it rest ih => simp [Batch.trackBatchFrom, ih]

lemma trackBatchFrom_get (out : Nat → Except Batch.RejReason Nat) :
    ∀ (items : List Batch.BatchItem) (j i : Nat) (entry : Batch.BatchEntry),
      (Batch.trackBatchFrom out j items).get? i = some entry →
        ∃ item, items.get? i = some item
          ∧ entry = Batch.mkBatchEntry item (out (j + i)) := by
  intro items
  induction items with
  | nil => intro j i entry h; simp [Batch.trackBatchFrom] at h
  | cons it rest ih =>
      intro j i entry h
      cases i with
      | zero =>
          simp only [Batch.trackBatchFrom, List.get?_cons_zero, Option.some.injEq] at h
          exact ⟨it, rfl, by rw [← h]; simp⟩
      | succ i2 =>
          simp only [Batch.trackBatchFrom, List.get?_cons_succ] at h
          obtain ⟨item, hit, he⟩ := ih (j + 1) i2 entry h
          have harith : j + 1 + i2 = j + (i2 + 1) := by omega
          exact ⟨item, by simpa using hit, by rw [he, harith]⟩

/-- Claim C8: `trackBatch` returns exactly one entry per input item; the
entry at position `i` carries item `i`'s tracking number and is populated
from item `i`'s own settlement only — a fulfilled dispatch gives a
populated `result` and no `error`, a rejected dispatch gives no `result`
and a populated `error` (the rejection reason converted to an Error),
never both; so no item's failure affects any other item's outcome and
every exception is converted to an entry rather than propagating. -/
theorem claim_C8 (items : List Batch.BatchItem)
    (out : Nat → Except Batch.RejReason Nat) :
    (Batch.trackBatch items out).length = items.length
    ∧ (∀ (i : Nat) (entry : Batch.BatchEntry),
        (Batch.trackBatch items out).get? i = some entry →
          ∃ item, items.get? i = some item
            ∧ entry.trackingNumber = item.trackingNumber
            ∧ ((∃ v, out i = Except.ok v
                  ∧ entry.result = some v ∧ entry.error = none)
               ∨ (∃ r, out i = Except.error r
                  ∧ entry.result = none
                  ∧ entry.error = some (Batch.toErrorMsg r)))) := by
  constructor
  · exact trackBatchFrom_length out 0 items
  · intro i entry h
    obtain ⟨item, hit, he⟩ := trackBatchFrom_get out items 0 i entry h
    have he2 : entry = Batch.mkBatchEntry item (out i) := by simpa using he
    subst he2
    refine ⟨item, hit, ?_⟩
    cases hout : out i with
    | ok v => exact ⟨rfl, Or.inl ⟨v, rfl, rfl, rfl⟩⟩
    | error r => exact ⟨rfl, Or.inr ⟨r, rfl, rfl, rfl⟩⟩

/-- Claim C8 witness: a two-item batch whose first dispatch fulfills with
11 and whose second rejects; both entries are produced, in order, the
second carrying the error and no result. -/
theorem claim_C8_witness :
    (Batch.trackBatch Batch.twoItems Batch.mixedSettlements).length
        = Batch.twoItems.length
    ∧ (∃ item, Batch.twoItems.get? 1 = some item
        ∧ (⟨"TN2", none, some "no provider registered"⟩ :
            Batch.BatchEntry).trackingNumber = item.trackingNumber
        ∧ ((∃ v, Batch.mixedSettlements 1 = Except.ok v
              ∧ (⟨"TN2", none, some "no provider registered"⟩ :
                  Batch.BatchEntry).result = some v
              ∧ (⟨"TN2", none, some "no provider registered"⟩ :
                  Batch.BatchEntry).error = none)
           ∨ (∃ r, Batch.mixedSettlements 1 = Except.error r
              ∧ (⟨"TN2", none, some "no provider registered"⟩ :
                  Batch.BatchEntry).result = none
              ∧ (⟨"TN2", none, some "no provider registered"⟩ :
                  Batch.BatchEntry).error = some (Batch.toErrorMsg r)))) :=
  ⟨(claim_C8 Batch.twoItems Batch.mixedSettlements).1,
   (claim_C8 Batch.twoItems Batch.mixedSettlements).2 1
     ⟨"TN2", none, some "no provider registered"⟩ rfl⟩

set_option maxHeartbeats 2000000 in
/-- Claim C9: `createTracker` with no middleware configuration builds
exactly [RateLimiter, Retry, CircuitBreaker] in that order (rate limiter
outermost, circuit breaker innermost); the same holds whenever the three
default-enabled entries are left undefined or set to `true` and cache and
logger are not enabled; cache and logger appear in the built list exactly
when their toggle is truthy (explicitly enabled); each of the three
default middlewares appears exactly when not set to literal `false`; and
the built list is always an ordered sublist of [RateLimiter, Retry,
CircuitBreaker, Cache, Logger]. -/
theorem claim_C9 :
    Config.createTrackerMiddlewares none
        = [Config.MwTag.rateLimiter, Config.MwTag.retry, Config.MwTag.circuitBreaker]
    ∧ (∀ c : Config.MiddlewaresConfig,
        (c.rateLimiter = Config.Toggle.undef ∨ c.rateLimiter = Config.Toggle.tru) →
        (c.retry = Config.Toggle.undef ∨ c.retry = Config.Toggle.tru) →
        (c.circuitBreaker = Config.Toggle.undef ∨ c.circuitBreaker = Config.Toggle.tru) →
        Config.truthy c.cache = false → Config.truthy c.logger = false →
          Config.buildMiddlewares c
            = [Config.MwTag.rateLimiter, Config.MwTag.retry, Config.MwTag.circuitBreaker])
    ∧ (∀ c : Config.MiddlewaresConfig,
        (Config.MwTag.rateLimiter ∈ Config.buildMiddlewares c
            ↔ c.rateLimiter ≠ Config.Toggle.fls)
        ∧ (Config.MwTag.retry ∈ Config.buildMiddlewares c
            ↔ c.retry ≠ Config.Toggle.fls)
        ∧ (Config.MwTag.circuitBreaker ∈ Config.buildMiddlewares c
            ↔ c.circuitBreaker ≠ Config.Toggle.fls)
        ∧ (Config.MwTag.cache ∈ Config.buildMiddlewares c
            ↔ Config.truthy c.cache = true)
        ∧ (Config.MwTag.logger ∈ Config.buildMiddlewares c
            ↔ Config.truthy c.logger = true))
    ∧ (∀ c : Config.MiddlewaresConfig,
        (Config.buildMiddlewares c).Sublist
          [Config.MwTag.rateLimiter, Config.MwTag.retry, Config.MwTag.circuitBreaker,
           Config.MwTag.cache, Config.MwTag.logger]) := by
  refine ⟨by decide, ?_, ?_, ?_⟩
  · intro c
    obtain ⟨f1, f2, f3, f4, f5⟩ := c
    cases f1 <;> cases f2 <;> cases f3 <;> cases f4 <;> cases f5 <;> decide
  · intro c
    obtain ⟨f1, f2, f3, f4, f5⟩ := c
    refine ⟨?_, ?_, ?_, ?_, ?_⟩ <;> cases f1 <;> cases f2 <;> cases f3 <;>
      cases f4 <;> cases f5 <;> decide
  · intro c
    obtain ⟨f1, f2, f3, f4, f5⟩ := c
    cases f1 <;> cases f2 <;> cases f3 <;> cases f4 <;> cases f5 <;> decide

/-- Claim C9 witness: a configuration leaving rate limiter and circuit
breaker undefined, retry set to `true`, cache set to `false` and logger
undefined builds exactly the three default middlewares in order. -/
theorem claim_C9_witness :
    Config.buildMiddlewares
        ⟨Config.Toggle.fls, Config.Toggle.tru, Config.Toggle.undef,
         Config.Toggle.undef, Config.Toggle.undef⟩
      = [Config.MwTag.rateLimiter, Config.MwTag.retry, Config.MwTag.circuitBreaker] :=
  claim_C9.2.1
    ⟨Config.Toggle.fls, Config.Toggle.tru, Config.Toggle.undef,
     Config.Toggle.undef, Config.Toggle.undef⟩
    (Or.inl rfl) (Or.inr rfl) (Or.inl rfl) rfl rfl

/- Small-step equations of the chain interpreter. -/
lemma runMw_ret (mws : List Chain.MwProg) (tOut : Nat → Chain.COutcome) (fuel : Nat)
    (o : Chain.COutcome) (s : Chain.ChSt) :
    Chain.runMw mws tOut (fuel + 1) (.ret o) s = some (s, o) := rfl

lemma runMw_emit (mws : List Chain.MwProg) (tOut : Nat → Chain.COutcome) (fuel : Nat)
    (e : Chain.ChEv) (p : Chain.MwProg) (s : Chain.ChSt) :
    Chain.runMw mws tOut (fuel + 1) (.emit e p) s
      = Chain.runMw mws tOut fuel p { s with trace := s.trace ++ [e] } := rfl

lemma runMw_callNext (mws : List Chain.MwProg) (tOut : Nat → Chain.COutcome) (fuel : Nat)
    (k : Chain.COutcome → Chain.MwProg) (s : Chain.ChSt) :
    Chain.runMw mws tOut (fuel + 1) (.callNext k) s
      = match Chain.nextStep mws tOut fuel s with
        | none => none
        | some (s2, o) => Chain.runMw mws tOut fuel (k o) s2 := rfl

/- Invoking `next()` when the shared cursor sits at the start of a block
of `recorder` middlewares runs each of them once in order — pre-hooks
outward-in, one terminal invocation, post-hooks inward-out — and moves
the cursor past the end of the chain. -/
lemma recorder_chain_aux (tOut : Nat → Chain.COutcome) :
    ∀ (names : List Nat) (pre : List Chain.MwProg) (fuel : Nat) (s : Chain.ChSt),
      s.index = pre.length →
      3 * names.length + 1 ≤ fuel →
      Chain.nextStep (pre ++ names.map Chain.recorder) tOut fuel s
        = some ({ s with index := pre.length + names.length,
                         termCalls := s.termCalls + 1,
                         trace := s.trace ++ names.map Chain.ChEv.before
                           ++ [Chain.ChEv.term] ++ names.reverse.map Chain.ChEv.after },
                tOut s.termCalls) := by
  intro names
  induction names with
  | nil =>
      intro pre fuel s hidx hfuel
      obtain ⟨si, st, str⟩ := s
      simp only at hidx
      subst hidx
      simp [Chain.nextStep]
  | cons n rest ih =>
      intro pre fuel s hidx hfuel
      obtain ⟨si, st, str⟩ := s
      simp only at hidx
      subst hidx
      simp only [List.length_cons] at hfuel
      obtain ⟨f2, rfl⟩ : ∃ f2, fuel = f2 + 1 + 1 := ⟨fuel - 2, by omega⟩
      have hlt : pre.length < (pre ++ (n :: rest).map Chain.recorder).length := by
        simp
      have hget : (pre ++ (n :: rest).map Chain.recorder).get ⟨pre.length, hlt⟩
          = Chain.recorder n := by
        rw [List.get_eq_getElem, List.getElem_append_right (Nat.le_refl pre.length)]
        simp
      have hstep : Chain.nextStep (pre ++ (n :: rest).map Chain.recorder) tOut
          (f2 + 1 + 1) ⟨pre.length, st, str⟩
          = Chain.runMw (pre ++ (n :: rest).map Chain.recorder) tOut (f2 + 1 + 1)
              (Chain.recorder n) ⟨pre.length + 1, st, str⟩ := by
        rw [Chain.nextStep, dif_pos hlt, hget]
      rw [hstep, Chain.recorder, runMw_emit, runMw_callNext]
      have hmws : pre ++ (n :: rest).map Chain.recorder
          = (pre ++ [Chain.recorder n]) ++ rest.map Chain.recorder := by simp
      have hin := ih (pre ++ [Chain.recorder n]) f2
        ⟨pre.length + 1, st, str ++ [Chain.ChEv.before n]⟩
        (by simp) (by omega)
      dsimp only at hin
      rw [hmws]
      dsimp only
      rw [hin]
      obtain ⟨g1, rfl⟩ : ∃ g1, f2 = g1 + 1 + 1 := ⟨f2 - 2, by omega⟩
      dsimp only
      rw [runMw_emit, runMw_ret]
      simp [List.append_assoc]
      omega

/-- Claim C1 (amended): the middleware chain has onion semantics on the
first descent, driven by a single cursor shared across the whole chain:
an empty middleware list invokes the terminal call directly; with
middlewares [A, B] and terminal T the order is A.before, B.before, T,
B.after, A.after, and for any list of pass-through middlewares each
middleware's (first) next() runs the remainder of the chain — the
middlewares after it, then the terminal call.  However the cursor is not
restored between invocations: a middleware that invokes next() a second
time (as RetryMiddleware does on retry) finds the cursor already past
the end and reaches the terminal call directly, skipping the middlewares
between it and the terminal, as the last conjunct shows for
[retryTwice, recorder 1]: the retry's second next() produces a second
terminal invocation but no second activation of middleware 1. -/
theorem claim_C1_amended :
    (∀ (tOut : Nat → Chain.COutcome) (fuel : Nat),
        Chain.executeMiddlewareChain [] tOut fuel
          = some (⟨0, 1, [Chain.ChEv.term]⟩, tOut 0))
    ∧ (∀ tOut : Nat → Chain.COutcome,
        Chain.executeMiddlewareChain [Chain.recorder 0, Chain.recorder 1] tOut 9
          = some (⟨2, 1, [Chain.ChEv.before 0, Chain.ChEv.before 1, Chain.ChEv.term,
                          Chain.ChEv.after 1, Chain.ChEv.after 0]⟩, tOut 0))
    ∧ (∀ (names : List Nat) (tOut : Nat → Chain.COutcome),
        Chain.executeMiddlewareChain (names.map Chain.recorder) tOut
            (3 * names.length + 2)
          = some (⟨names.length, 1,
                   names.map Chain.ChEv.before ++ [Chain.ChEv.term]
                     ++ names.reverse.map Chain.ChEv.after⟩, tOut 0))
    ∧ Chain.executeMiddlewareChain [Chain.retryTwice, Chain.recorder 1]
          Chain.failThenOk 20
        = some (⟨2, 2, [Chain.ChEv.before 1, Chain.ChEv.term, Chain.ChEv.after 1,
                        Chain.ChEv.term]⟩, Except.ok 42) := by
  refine ⟨fun tOut fuel => rfl, fun tOut => rfl, ?_, rfl⟩
  intro names tOut
  cases hnames : names with
  | nil => rfl
  | cons n rest =>
      have hne : ((n :: rest).map Chain.recorder).length ≠ 0 := by simp
      have h := recorder_chain_aux tOut (n :: rest) [] (3 * (n :: rest).length + 2)
        Chain.chInit rfl (by omega)
      simp only [List.nil_append] at h
      rw [Chain.executeMiddlewareChain, if_neg hne, h]
      simp [Chain.chInit]

/-- Claim C1 counterexample: with middlewares [retryTwice, recorder 1]
(the RetryMiddleware re-invocation pattern at position 0, an
observability middleware at position 1) and a terminal call that fails
once then succeeds, the claim predicts that the retry middleware's second
next() runs the remainder of the chain — middleware 1 then the terminal —
so middleware 1 would activate once per terminal invocation.  The actual
run makes two terminal invocations but records exactly one `before 1`
event: the second next() skipped middleware 1 and hit the terminal call
directly, because the chain's `index` cursor is shared and already past
the end. -/
theorem claim_C1_counterexample :
    Chain.executeMiddlewareChain [Chain.retryTwice, Chain.recorder 1]
        Chain.failThenOk 20
      = some (⟨2, 2, [Chain.ChEv.before 1, Chain.ChEv.term, Chain.ChEv.after 1,
                      Chain.ChEv.term]⟩, Except.ok 42)
    ∧ List.count (Chain.ChEv.before 1)
        [Chain.ChEv.before 1, Chain.ChEv.term, Chain.ChEv.after 1, Chain.ChEv.term] = 1
    ∧ List.count Chain.ChEv.term
        [Chain.ChEv.before 1, Chain.ChEv.term, Chain.ChEv.after 1, Chain.ChEv.term] = 2 :=
  ⟨rfl, by decide, by decide⟩

end STrack
